import Mathlib

/-!
Formal model of the zonal landscape-pattern metrics engine
(`src/course/shdiandlpi.py` and `src/course/pdanded.py`).

A raster window is embedded as a `Grid`: a height, a width, and a total
function giving the class code stored at each pixel.  Pixel values are
natural numbers; the nodata sentinel is the literal `255` used by the
source.  Exact arithmetic uses `ℚ` wherever the Python code only divides
counts; `ℝ` enters only through `Real.log` (numpy's `np.log`).

Source correspondence:
* `uniqueVals`, `pixelCount` — `np.unique(raster_data, return_counts=True)`
  (the sort order of `np.unique` is immaterial: every use folds a
  commutative sum or a maximum over the distinct values);
* `calculate_shdi` — `LandscapeMetricsCalculator._calculate_shdi`;
* `calculate_lpi` — `LandscapeMetricsCalculator._calculate_lpi`;
* `calculate_contag` — `LandscapeMetricsCalculator._calculate_contag`;
* `patch_density`, `calculate_edge_length` — the synonymous methods of
  `pdanded.py`;
* `processZone` — the body of the per-zone loop of
  `shdiandlpi.py::_calculate_metrics`;
* `loadRaster` / `calculateMetricsPipeline` — `_load_raster` and the
  raster-level prologue of `_calculate_metrics`.
-/

namespace Landuse

/-- A raster window: `H` rows and `W` cols of class codes.  `data i j` is
the value at row `i`, column `j`; values outside the bounds are never
read by the embedded code. -/
structure Grid where
  H : ℕ
  W : ℕ
  data : ℕ → ℕ → ℕ

/-- Build a grid from a row-major list of rows (test helper mirroring a
numpy 2-D array literal). -/
def mkGrid (rows : List (List ℕ)) : Grid :=
  ⟨rows.length, (rows.headD []).length, fun i j => ((rows.getD i []).getD j 0)⟩

/-- The index set of the window's pixels, as row/column pairs. -/
def pixelIdx (g : Grid) : Finset (ℕ × ℕ) :=
  Finset.range g.H ×ˢ Finset.range g.W

/-- Value of the pixel at position `p`. -/
def val (g : Grid) (p : ℕ × ℕ) : ℕ :=
  g.data p.1 p.2

/-- `raster_data.size`: the raw pixel count of the window. -/
def gsize (g : Grid) : ℕ :=
  g.H * g.W

/-- The distinct values present in the window: the value set that
`np.unique(raster_data)` returns (as a set; `np.unique` sorts it, which
no use of it depends on). -/
def uniqueVals (g : Grid) : Finset ℕ :=
  (pixelIdx g).image (val g)

/-- `counts[v]` from `np.unique(raster_data, return_counts=True)`: how
many pixels of the window hold the value `v`. -/
def pixelCount (g : Grid) (v : ℕ) : ℕ :=
  ((pixelIdx g).filter (fun p => val g p = v)).card

/-- One proportion `counts / total_pixels` of `_calculate_shdi`
(`total_pixels = raster_data.size`). -/
def shdiProp (g : Grid) (v : ℕ) : ℚ :=
  (pixelCount g v : ℚ) / (gsize g : ℚ)

/-- `_calculate_shdi`: `-np.sum(proportions * np.log(proportions))` over
the distinct values of the window, with `proportions = counts / size`.
Only `Real.log` (numpy's `np.log`) is noncomputable here; every count and
proportion it consumes is decidably computable. -/
noncomputable def calculate_shdi (g : Grid) : ℝ :=
  -∑ v ∈ uniqueVals g, ((shdiProp g v : ℝ) * Real.log (shdiProp g v))

/-- `counts.max()` of `_calculate_lpi`: the largest per-value pixel count
over the distinct values of the window. -/
def maxCount (g : Grid) : ℕ :=
  (uniqueVals g).sup (pixelCount g)

/-- `_calculate_lpi`: `counts.max() / total_area`, where the caller passes
`total_area = clipped_data.size`. -/
def calculate_lpi (g : Grid) (total_area : ℕ) : ℚ :=
  (maxCount g : ℚ) / (total_area : ℚ)

/-- The four 4-connected neighbor candidates of pixel `(i, j)`:
`(i-1, j), (i+1, j), (i, j-1), (i, j+1)`, exactly the `neighbors` list
built by `_calculate_contag` and `_calculate_edge_length` (in `ℤ`
because Python index arithmetic may go negative). -/
def nbrCand (i j : ℕ) : List (ℤ × ℤ) :=
  [((i : ℤ) - 1, (j : ℤ)), ((i : ℤ) + 1, (j : ℤ)),
   ((i : ℤ), (j : ℤ) - 1), ((i : ℤ), (j : ℤ) + 1)]

/-- The in-bounds test `0 <= ni < shape[0] and 0 <= nj < shape[1]`. -/
def inBounds (g : Grid) (q : ℤ × ℤ) : Prop :=
  0 ≤ q.1 ∧ q.1 < (g.H : ℤ) ∧ 0 ≤ q.2 ∧ q.2 < (g.W : ℤ)

instance (g : Grid) : DecidablePred (inBounds g) := fun q => by
  unfold inBounds; infer_instance

/-- The in-bounds 4-connected neighbors of pixel `(i, j)`, as natural
coordinate pairs. -/
def nbrs (g : Grid) (i j : ℕ) : List (ℕ × ℕ) :=
  ((nbrCand i j).filter (fun q => decide (inBounds g q))).map
    (fun q => (q.1.toNat, q.2.toNat))

/-- `pdanded.py::patch_density`:
`(raster_data == class_val).sum() * cell_area / total_area`. -/
def patch_density (g : Grid) (class_val : ℕ) (cell_area total_area : ℚ) : ℚ :=
  ((pixelCount g class_val : ℚ) * cell_area) / total_area

/-- `pdanded.py::_calculate_edge_length`: every pixel of `class_val`
contributes, for each in-bounds neighbor of a different value, `res_x`
when the neighbor is in the same row (`ni == i`) and `res_y` otherwise. -/
def calculate_edge_length (g : Grid) (class_val : ℕ) (res_x res_y : ℚ) : ℚ :=
  ∑ p ∈ pixelIdx g,
    if val g p = class_val then
      ((nbrs g p.1 p.2).map
        (fun q => if val g q ≠ class_val then (if q.1 = p.1 then res_x else res_y) else 0)).sum
    else 0

/-- The ED value assembled by `pdanded.py::_calculate_metrics`:
`edge_length / total_area` with `total_area = clipped_data.size * cell_area`
and `cell_area = res_x * res_y`. -/
def edValue (g : Grid) (class_val : ℕ) (res_x res_y : ℚ) : ℚ :=
  calculate_edge_length g class_val res_x res_y / ((gsize g : ℚ) * (res_x * res_y))

/-- Entry `adjacency_matrix[u][v]` built by `_calculate_contag`: the
number of (pixel, in-bounds neighbor) scans where the pixel holds `u`
and the neighbor holds `v`.  The source guards
`current_class in class_to_index` / `neighbor_class in class_to_index`
are vacuous — `class_to_index` is keyed by `np.unique` of the very same
array, so every pixel and neighbor value is a key — and are therefore
not repeated here. -/
def adjCount (g : Grid) (u v : ℕ) : ℕ :=
  ∑ p ∈ pixelIdx g,
    if val g p = u then ((nbrs g p.1 p.2).filter (fun q => val g q = v)).length else 0

/-- `np.sum(adjacency_matrix)`: the matrix total over all class pairs. -/
def totalAdjacency (g : Grid) : ℕ :=
  ∑ u ∈ uniqueVals g, ∑ v ∈ uniqueVals g, adjCount g u v

/-- `m = len(unique)` in `_calculate_contag`: the number of distinct
values in the window. -/
def numClasses (g : Grid) : ℕ :=
  (uniqueVals g).card

/-- `proportions[v] = counts[v] / total_area` of `_calculate_contag`. -/
def contagProp (g : Grid) (total_area : ℕ) (v : ℕ) : ℚ :=
  (pixelCount g v : ℚ) / (total_area : ℚ)

/-- `p_ik = proportions[i] * (adjacency_matrix[i, k] / total_adjacency)`. -/
def pIK (g : Grid) (total_area : ℕ) (u v : ℕ) : ℚ :=
  contagProp g total_area u * ((adjCount g u v : ℚ) / (totalAdjacency g : ℚ))

/-- The accumulated double loop of `_calculate_contag`: terms
`p_ik * ln p_ik` are added only when `total_adjacency > 0` and
`p_ik > 0`. -/
noncomputable def contagNumerator (g : Grid) (total_area : ℕ) : ℝ :=
  ∑ u ∈ uniqueVals g, ∑ v ∈ uniqueVals g,
    if 0 < totalAdjacency g ∧ 0 < pIK g total_area u v then
      (pIK g total_area u v : ℝ) * Real.log (pIK g total_area u v)
    else 0

/-- The divisor `2 * np.log(m)` of `_calculate_contag`'s final line.  The
source has no special case for `m = 1`, where this expression is `0`. -/
noncomputable def contagDenominator (g : Grid) : ℝ :=
  2 * Real.log (numClasses g)

/-- `_calculate_contag`'s result:
`(1 + contag / (2 * np.log(m))) * 100`, with no guard on the divisor. -/
noncomputable def calculate_contag (g : Grid) (total_area : ℕ) : ℝ :=
  (1 + contagNumerator g total_area / contagDenominator g) * 100

/-- Python `int()` applied to a fraction: truncation toward zero. -/
def pyInt (x : ℚ) : ℤ :=
  if 0 ≤ x then ⌊x⌋ else ⌈x⌉

/-- Python slice normalization for `xs[a:b]` on an axis of length `n`:
negative endpoints count from the end, then both are clamped to
`[0, n]`; the selected indices are `[lo, hi)`. -/
def sliceBounds (a b : ℤ) (n : ℕ) : ℕ × ℕ :=
  let norm : ℤ → ℤ := fun x => if x < 0 then x + (n : ℤ) else x
  let clamp : ℤ → ℕ := fun x => (max 0 (min x (n : ℤ))).toNat
  (clamp (norm a), clamp (norm b))

/-- `data[row_start:row_end, col_start:col_end]` with numpy (= Python
list) slice semantics on each axis. -/
def clipGrid (g : Grid) (r0 r1 c0 c1 : ℤ) : Grid :=
  let rb := sliceBounds r0 r1 g.H
  let cb := sliceBounds c0 c1 g.W
  ⟨rb.2 - rb.1, cb.2 - cb.1, fun i j => g.data (rb.1 + i) (cb.1 + j)⟩

/-- The fractional pixel window of one zone, as computed by
`~meta["transform"] * (minx, maxy)` and `~meta["transform"] * (maxx, miny)`
in `_calculate_metrics`. -/
structure ZoneBounds where
  colStart : ℚ
  rowStart : ℚ
  colEnd : ℚ
  rowEnd : ℚ

/-- A zone's window is rejected by the explicit bounds check of
`_calculate_metrics`:
`col_start < 0 or row_start < 0 or col_end > data.shape[1] or row_end > data.shape[0]`. -/
def boundsInvalid (data : Grid) (z : ZoneBounds) : Prop :=
  z.colStart < 0 ∨ z.rowStart < 0 ∨ (data.W : ℚ) < z.colEnd ∨ (data.H : ℚ) < z.rowEnd

instance (data : Grid) (z : ZoneBounds) : Decidable (boundsInvalid data z) := by
  unfold boundsInvalid; infer_instance

/-- The window a valid-bounds zone clips out of the raster. -/
def zoneClip (data : Grid) (z : ZoneBounds) : Grid :=
  clipGrid data (pyInt z.rowStart) (pyInt z.rowEnd) (pyInt z.colStart) (pyInt z.colEnd)

/-- Count of non-nodata pixels: `(clipped_data != 255).sum()`. -/
def validCount (g : Grid) : ℕ :=
  ((pixelIdx g).filter (fun p => val g p ≠ 255)).card

/-- Body of the per-zone loop of `shdiandlpi.py::_calculate_metrics`.
`none` models the row whose SHDI, LPI and CONTAG cells are all set to
`float("nan")` before `continue`; `some` carries the three computed
metrics (`total_area = clipped_data.size` is passed to LPI and CONTAG). -/
noncomputable def processZone (data : Grid) (z : ZoneBounds) : Option (ℝ × ℚ × ℝ) :=
  if boundsInvalid data z then none
  else if gsize (zoneClip data z) = 0 ∨ validCount (zoneClip data z) = 0 then none
  else some (calculate_shdi (zoneClip data z),
             calculate_lpi (zoneClip data z) (gsize (zoneClip data z)),
             calculate_contag (zoneClip data z) (gsize (zoneClip data z)))

/-- The inner loop of `shdiandlpi.py::_calculate_metrics` over the zone
table: one output row per zone, in order. -/
noncomputable def processZones (data : Grid) (zs : List ZoneBounds) :
    List (Option (ℝ × ℚ × ℝ)) :=
  zs.map (processZone data)

/-- Body of the per-zone loop of `pdanded.py::_calculate_metrics`: the
six `(PD_c, ED_c)` pairs for `class_val in range(1, 7)`, or `none` when
all twelve cells are set to `float("nan")` before `continue`.
`cell_area = res_x * res_y`, `total_area = clipped_data.size * cell_area`. -/
def processZonePdEd (data : Grid) (res_x res_y : ℚ) (z : ZoneBounds) :
    Option (List (ℚ × ℚ)) :=
  if boundsInvalid data z then none
  else if gsize (zoneClip data z) = 0 ∨ validCount (zoneClip data z) = 0 then none
  else some ((List.range 6).map (fun k =>
    (patch_density (zoneClip data z) (k + 1) (res_x * res_y)
       ((gsize (zoneClip data z) : ℚ) * (res_x * res_y)),
     edValue (zoneClip data z) (k + 1) res_x res_y)))

/-- A raster as handed to `_load_raster`: its CRS identifier and its
first band. -/
structure RasterFile where
  crs : String
  band : Grid

/-- The distinguishable failure modes of the raster-level prologue. -/
inductive PipelineError where
  /-- What actually escapes `_load_raster` on a mismatched CRS: the
  branch reprojects into a dataset opened `"r"` (read-only) and never
  assigns `meta`, so the `return data, meta` line raises
  `UnboundLocalError` (and the write into a read-only band fails before
  that) — an exception that does not identify the CRS mismatch. -/
  | loadFailure
  /-- The `ValueError` raised by `_calculate_metrics` whose message names
  the mismatched coordinate system. -/
  | crsMismatch

/-- `_load_raster` (identical in both scripts): on the matching branch
it returns the band and its metadata; on the mismatch branch no value
ever reaches the caller — see `PipelineError.loadFailure`. -/
def loadRaster (r : RasterFile) : Except PipelineError (Grid × String) :=
  if r.crs = "EPSG:32649" then .ok (r.band, r.crs) else .error .loadFailure

/-- The raster-level prologue of `shdiandlpi.py::_calculate_metrics`:
load the raster, re-check `meta["crs"]` against `EPSG:32649` (raising
`ValueError` on mismatch), then run the per-zone loop. -/
noncomputable def calculateMetricsPipeline (r : RasterFile) (zs : List ZoneBounds) :
    Except PipelineError (List (Option (ℝ × ℚ × ℝ))) :=
  match loadRaster r with
  | .error e => .error e
  | .ok (data, metaCrs) =>
      if metaCrs ≠ "EPSG:32649" then .error .crsMismatch
      else .ok (processZones data zs)

/-! ## Claim-side definitions

The definitions below are written from the wording of the specification
and of the claims (not from the source); the theorems compare them with
the source-derived definitions above. -/

/-- Two pixel positions are 4-connected neighbors: same row and columns
differing by one, or same column and rows differing by one. -/
def Adj (p q : ℕ × ℕ) : Prop :=
  (p.1 = q.1 ∧ (p.2 + 1 = q.2 ∨ q.2 + 1 = p.2)) ∨
  (p.2 = q.2 ∧ (p.1 + 1 = q.1 ∨ q.1 + 1 = p.1))

instance (p q : ℕ × ℕ) : Decidable (Adj p q) := by
  unfold Adj; infer_instance

/-- Ordered adjacent pixel pairs where the first pixel holds class `c`,
the second holds a different value, and the two pixels share a row
(a horizontal-direction boundary, crossed by a pixel-width unit). -/
def edgeSameRowPairs (g : Grid) (c : ℕ) : Finset ((ℕ × ℕ) × (ℕ × ℕ)) :=
  (pixelIdx g ×ˢ pixelIdx g).filter
    (fun z => val g z.1 = c ∧ val g z.2 ≠ c ∧ Adj z.1 z.2 ∧ z.1.1 = z.2.1)

/-- Ordered adjacent pixel pairs where the first pixel holds class `c`,
the second holds a different value, and the two pixels share a column
(a vertical-direction boundary, crossed by a pixel-height unit). -/
def edgeSameColPairs (g : Grid) (c : ℕ) : Finset ((ℕ × ℕ) × (ℕ × ℕ)) :=
  (pixelIdx g ×ˢ pixelIdx g).filter
    (fun z => val g z.1 = c ∧ val g z.2 ≠ c ∧ Adj z.1 z.2 ∧ z.1.2 = z.2.2)

/-- The claim's edge length for class `c`: one pixel-width unit per
differing same-row neighbor pair and one pixel-height unit per differing
same-column neighbor pair, seen from the class-`c` side. -/
def edgeLengthSpec (g : Grid) (c : ℕ) (res_x res_y : ℚ) : ℚ :=
  res_x * ((edgeSameRowPairs g c).card : ℚ) + res_y * ((edgeSameColPairs g c).card : ℚ)

/-- The claim's set of land-cover classes present in a window: the
distinct values with the nodata sentinel removed. -/
def classesPresent (g : Grid) : Finset ℕ :=
  (uniqueVals g).erase 255

/-- The claim's SHDI: `-Σ_c p_c · ln p_c` over the distinct land-cover
classes present, with `p_c = pixel_count[c] / total_valid_pixels`. -/
noncomputable def shdiClaim (g : Grid) : ℝ :=
  -∑ c ∈ classesPresent g,
    (((pixelCount g c : ℚ) / (validCount g : ℚ) : ℚ) : ℝ) *
      Real.log ((pixelCount g c : ℚ) / (validCount g : ℚ) : ℚ)

/-- The claim's LPI: the largest pixel count over the land-cover classes
present (nodata excluded from the candidates), divided by the raw pixel
count of the window. -/
def lpiClaim (g : Grid) : ℚ :=
  (((classesPresent g).sup (pixelCount g) : ℕ) : ℚ) / (gsize g : ℚ)

/-- A zone's window is Invalid in the sense of the spec: fractional
bounds outside the raster, or a clipped sub-grid that is empty or
holds nothing but the nodata sentinel. -/
def zoneInvalid (data : Grid) (z : ZoneBounds) : Prop :=
  boundsInvalid data z ∨ gsize (zoneClip data z) = 0 ∨ validCount (zoneClip data z) = 0

/-! ## Supporting lemmas -/

theorem card_pixelIdx (g : Grid) : (pixelIdx g).card = gsize g := by
  simp [pixelIdx, gsize]

theorem val_mem_uniqueVals {g : Grid} {p : ℕ × ℕ} (hp : p ∈ pixelIdx g) :
    val g p ∈ uniqueVals g :=
  Finset.mem_image_of_mem _ hp

theorem adj_comm (p q : ℕ × ℕ) : Adj p q ↔ Adj q p := by
  unfold Adj; omega

theorem adj_row_or_col {p q : ℕ × ℕ} (h : Adj p q) (hrow : ¬p.1 = q.1) :
    p.2 = q.2 := by
  unfold Adj at h; omega

theorem mem_nbrs {g : Grid} {i j : ℕ} (hi : i < g.H) (hj : j < g.W) (q : ℕ × ℕ) :
    q ∈ nbrs g i j ↔ q ∈ pixelIdx g ∧ Adj (i, j) q := by
  obtain ⟨a, b⟩ := q
  simp only [nbrs, List.mem_map, List.mem_filter, nbrCand, List.mem_cons,
    List.not_mem_nil, or_false, decide_eq_true_eq, inBounds, pixelIdx,
    Finset.mem_product, Finset.mem_range, Adj, Prod.mk.injEq]
  constructor
  · rintro ⟨z, ⟨hmem, hb⟩, hxa, hyb⟩
    rcases hmem with rfl | rfl | rfl | rfl <;> dsimp only at hb hxa hyb ⊢ <;> omega
  · rintro ⟨⟨ha, hb'⟩, hadj⟩
    rcases hadj with ⟨h1, h2 | h2⟩ | ⟨h1, h2 | h2⟩
    · exact ⟨((i : ℤ), (j : ℤ) + 1),
        ⟨Or.inr (Or.inr (Or.inr rfl)), by dsimp only; omega⟩,
        by dsimp only; omega, by dsimp only; omega⟩
    · exact ⟨((i : ℤ), (j : ℤ) - 1),
        ⟨Or.inr (Or.inr (Or.inl rfl)), by dsimp only; omega⟩,
        by dsimp only; omega, by dsimp only; omega⟩
    · exact ⟨((i : ℤ) + 1, (j : ℤ)),
        ⟨Or.inr (Or.inl rfl), by dsimp only; omega⟩,
        by dsimp only; omega, by dsimp only; omega⟩
    · exact ⟨((i : ℤ) - 1, (j : ℤ)),
        ⟨Or.inl rfl, by dsimp only; omega⟩,
        by dsimp only; omega, by dsimp only; omega⟩

theorem nbrs_nodup (g : Grid) (i j : ℕ) : (nbrs g i j).Nodup := by
  apply List.Nodup.map_on
  · intro x hx y hy hxy
    have hbx : inBounds g x := by
      have := (List.mem_filter.mp hx).2
      simpa using this
    have hby : inBounds g y := by
      have := (List.mem_filter.mp hy).2
      simpa using this
    obtain ⟨x1, x2⟩ := x
    obtain ⟨y1, y2⟩ := y
    obtain ⟨hx1, _, hx2, _⟩ := hbx
    obtain ⟨hy1, _, hy2, _⟩ := hby
    injection hxy with e1 e2
    simp only [Prod.mk.injEq]
    constructor <;> omega
  · apply List.Nodup.filter
    simp [nbrCand, List.nodup_cons, Prod.ext_iff]
    omega

theorem pixel_lt {g : Grid} {p : ℕ × ℕ} (hp : p ∈ pixelIdx g) : p.1 < g.H ∧ p.2 < g.W := by
  simpa [pixelIdx] using hp

theorem nbrs_toFinset {g : Grid} {p : ℕ × ℕ} (hp : p ∈ pixelIdx g) :
    (nbrs g p.1 p.2).toFinset = (pixelIdx g).filter (fun q => Adj p q) := by
  obtain ⟨h1, h2⟩ := pixel_lt hp
  ext q
  rw [List.mem_toFinset, mem_nbrs h1 h2, Finset.mem_filter]

theorem nbrs_map_sum {M : Type*} [AddCommMonoid M] {g : Grid} {p : ℕ × ℕ}
    (hp : p ∈ pixelIdx g) (f : ℕ × ℕ → M) :
    ((nbrs g p.1 p.2).map f).sum = ∑ q ∈ (pixelIdx g).filter (fun q => Adj p q), f q := by
  rw [← List.sum_toFinset f (nbrs_nodup g p.1 p.2), nbrs_toFinset hp]

theorem nbrs_filter_length {g : Grid} {p : ℕ × ℕ} (hp : p ∈ pixelIdx g)
    (P : ℕ × ℕ → Prop) [DecidablePred P] :
    ((nbrs g p.1 p.2).filter (fun q => decide (P q))).length =
      ((pixelIdx g).filter (fun q => Adj p q ∧ P q)).card := by
  rw [← List.toFinset_card_of_nodup ((nbrs_nodup g p.1 p.2).filter _),
    List.toFinset_filter, nbrs_toFinset hp, Finset.filter_filter]
  congr 1
  apply Finset.filter_congr
  intro q _
  simp

theorem adjCount_pairs (g : Grid) (u v : ℕ) :
    adjCount g u v =
      ∑ p ∈ pixelIdx g, ∑ q ∈ pixelIdx g,
        if val g p = u ∧ val g q = v ∧ Adj p q then 1 else 0 := by
  unfold adjCount
  refine Finset.sum_congr rfl fun p hp => ?_
  by_cases hu : val g p = u
  · rw [if_pos hu, nbrs_filter_length hp (fun q => val g q = v), Finset.card_filter]
    refine Finset.sum_congr rfl fun q _ => ?_
    have : (Adj p q ∧ val g q = v) ↔ (val g p = u ∧ val g q = v ∧ Adj p q) := by
      rw [eq_true hu]; tauto
    exact if_congr this rfl rfl
  · rw [if_neg hu]
    symm
    apply Finset.sum_eq_zero
    intro q _
    rw [if_neg]
    tauto

theorem sum_countP_eq {α β : Type*} [DecidableEq β] (l : List α) (f : α → β) (U : Finset β)
    (h : ∀ x ∈ l, f x ∈ U) :
    ∑ v ∈ U, l.countP (fun x => decide (f x = v)) = l.length := by
  induction l with
  | nil => simp
  | cons a t ih =>
    simp only [List.countP_cons, List.length_cons, decide_eq_true_eq]
    rw [Finset.sum_add_distrib, ih (fun x hx => h x (List.mem_cons_of_mem a hx))]
    have ha : f a ∈ U := h a (List.mem_cons_self a t)
    rw [Finset.sum_ite_eq U (f a) (fun _ => 1), if_pos ha]

theorem totalAdjacency_eq_sum_nbrs (g : Grid) :
    totalAdjacency g = ∑ p ∈ pixelIdx g, (nbrs g p.1 p.2).length := by
  unfold totalAdjacency adjCount
  have hswap : ∀ u ∈ uniqueVals g,
      (∑ v ∈ uniqueVals g, ∑ p ∈ pixelIdx g,
        if val g p = u then ((nbrs g p.1 p.2).filter (fun q => val g q = v)).length else 0) =
      ∑ p ∈ pixelIdx g, ∑ v ∈ uniqueVals g,
        if val g p = u then ((nbrs g p.1 p.2).filter (fun q => val g q = v)).length else 0 :=
    fun u _ => Finset.sum_comm
  rw [Finset.sum_congr rfl hswap, Finset.sum_comm]
  refine Finset.sum_congr rfl fun p hp => ?_
  have hlen : ∀ u,
      (∑ v ∈ uniqueVals g,
        if val g p = u then ((nbrs g p.1 p.2).filter (fun q => val g q = v)).length else 0) =
      if val g p = u then (nbrs g p.1 p.2).length else 0 := by
    intro u
    rw [Finset.sum_ite_irrel]
    rw [Finset.sum_const_zero]
    congr 1
    have hmem : ∀ q ∈ nbrs g p.1 p.2, val g q ∈ uniqueVals g := by
      intro q hq
      obtain ⟨h1, h2⟩ := pixel_lt hp
      exact val_mem_uniqueVals ((mem_nbrs h1 h2 q).mp hq).1
    calc ∑ v ∈ uniqueVals g, ((nbrs g p.1 p.2).filter (fun q => val g q = v)).length
        = ∑ v ∈ uniqueVals g, (nbrs g p.1 p.2).countP (fun q => decide (val g q = v)) := by
          refine Finset.sum_congr rfl fun v _ => ?_
          rw [List.countP_eq_length_filter]
      _ = (nbrs g p.1 p.2).length := sum_countP_eq _ _ _ hmem
  rw [Finset.sum_congr rfl fun u _ => hlen u]
  rw [Finset.sum_ite_eq (uniqueVals g) (val g p) (fun _ => (nbrs g p.1 p.2).length)]
  rw [if_pos (val_mem_uniqueVals hp)]

theorem nbrs_length_eq {g : Grid} {i j : ℕ} (hi : i < g.H) (hj : j < g.W) :
    (nbrs g i j).length =
      ((if 1 ≤ i then 1 else 0) + (if i + 1 < g.H then 1 else 0)) +
      ((if 1 ≤ j then 1 else 0) + (if j + 1 < g.W then 1 else 0)) := by
  rw [nbrs, List.length_map, nbrCand]
  simp only [List.filter_cons, List.filter_nil, decide_eq_true_eq, inBounds]
  split_ifs <;> simp only [List.length_cons, List.length_nil] <;> omega

theorem sum_range_one_le (n : ℕ) :
    (∑ i ∈ Finset.range n, if 1 ≤ i then 1 else 0) = n - 1 := by
  calc (∑ i ∈ Finset.range n, if 1 ≤ i then 1 else 0)
      = ((Finset.range n).filter (fun i => 1 ≤ i)).card := (Finset.card_filter _ _).symm
    _ = (Finset.Ico 1 n).card := by
        congr 1
        ext i
        simp only [Finset.mem_filter, Finset.mem_range, Finset.mem_Ico]
        omega
    _ = n - 1 := by rw [Nat.card_Ico]

theorem sum_range_succ_lt (n : ℕ) :
    (∑ i ∈ Finset.range n, if i + 1 < n then 1 else 0) = n - 1 := by
  calc (∑ i ∈ Finset.range n, if i + 1 < n then 1 else 0)
      = ((Finset.range n).filter (fun i => i + 1 < n)).card := (Finset.card_filter _ _).symm
    _ = (Finset.range (n - 1)).card := by
        congr 1
        ext i
        simp only [Finset.mem_filter, Finset.mem_range]
        omega
    _ = n - 1 := Finset.card_range _

theorem adj_not_both {p q : ℕ × ℕ} (h : Adj p q) : ¬(p.1 = q.1 ∧ p.2 = q.2) := by
  unfold Adj at h; omega

theorem sum_ite_const_mul_card {α : Type*} [DecidableEq α] (s : Finset α)
    (P : α → Prop) [DecidablePred P] (r : ℚ) :
    (∑ z ∈ s, if P z then r else 0) = r * ((s.filter P).card : ℚ) := by
  rw [← Finset.sum_filter, Finset.sum_const, nsmul_eq_mul, mul_comm]

theorem sum_sum_ite_pairs (s t : Finset (ℕ × ℕ))
    (P : (ℕ × ℕ) × (ℕ × ℕ) → Prop) [DecidablePred P] (r : ℚ) :
    (∑ p ∈ s, ∑ q ∈ t, if P (p, q) then r else 0) =
      r * (((s ×ˢ t).filter P).card : ℚ) := by
  rw [← sum_ite_const_mul_card (s ×ˢ t) P r, Finset.sum_product]

theorem calculate_edge_length_eq_spec (g : Grid) (c : ℕ) (rx ry : ℚ) :
    calculate_edge_length g c rx ry = edgeLengthSpec g c rx ry := by
  unfold calculate_edge_length
  have step1 : ∀ p ∈ pixelIdx g,
      (if val g p = c then
        ((nbrs g p.1 p.2).map
          (fun q => if val g q ≠ c then (if q.1 = p.1 then rx else ry) else 0)).sum
      else 0)
      = ∑ q ∈ pixelIdx g,
          ((if val g p = c ∧ val g q ≠ c ∧ Adj p q ∧ p.1 = q.1 then rx else 0)
            + (if val g p = c ∧ val g q ≠ c ∧ Adj p q ∧ p.2 = q.2 then ry else 0)) := by
    intro p hp
    by_cases hc : val g p = c
    · rw [if_pos hc, nbrs_map_sum hp, Finset.sum_filter]
      refine Finset.sum_congr rfl fun q _ => ?_
      by_cases hadj : Adj p q
      · rw [if_pos hadj]
        by_cases hv : val g q ≠ c
        · rw [if_pos hv]
          by_cases hrow : q.1 = p.1
          · rw [if_pos hrow, if_pos ⟨hc, hv, hadj, hrow.symm⟩, if_neg, add_zero]
            rintro ⟨-, -, -, hcol⟩
            exact adj_not_both hadj ⟨hrow.symm, hcol⟩
          · rw [if_neg hrow, if_neg, zero_add, if_pos]
            · exact ⟨hc, hv, hadj, adj_row_or_col hadj (fun h => hrow h.symm)⟩
            · rintro ⟨-, -, -, h⟩
              exact hrow h.symm
        · rw [if_neg hv, if_neg (by tauto), if_neg (by tauto), add_zero]
      · rw [if_neg hadj, if_neg (by tauto), if_neg (by tauto), add_zero]
    · rw [if_neg hc]
      symm
      apply Finset.sum_eq_zero
      intro q _
      rw [if_neg (by tauto), if_neg (by tauto), add_zero]
  rw [Finset.sum_congr rfl step1]
  simp only [Finset.sum_add_distrib]
  have h1 : (∑ p ∈ pixelIdx g, ∑ q ∈ pixelIdx g,
        if val g p = c ∧ val g q ≠ c ∧ Adj p q ∧ p.1 = q.1 then rx else 0) =
      rx * ((edgeSameRowPairs g c).card : ℚ) :=
    sum_sum_ite_pairs (pixelIdx g) (pixelIdx g)
      (fun z => val g z.1 = c ∧ val g z.2 ≠ c ∧ Adj z.1 z.2 ∧ z.1.1 = z.2.1) rx
  have h2 : (∑ p ∈ pixelIdx g, ∑ q ∈ pixelIdx g,
        if val g p = c ∧ val g q ≠ c ∧ Adj p q ∧ p.2 = q.2 then ry else 0) =
      ry * ((edgeSameColPairs g c).card : ℚ) :=
    sum_sum_ite_pairs (pixelIdx g) (pixelIdx g)
      (fun z => val g z.1 = c ∧ val g z.2 ≠ c ∧ Adj z.1 z.2 ∧ z.1.2 = z.2.2) ry
  rw [h1, h2, edgeLengthSpec]

theorem nodata_not_mem {g : Grid} (hnd : ∀ p ∈ pixelIdx g, val g p ≠ 255) :
    (255 : ℕ) ∉ uniqueVals g := by
  rw [uniqueVals]
  simp only [Finset.mem_image, not_exists, not_and]
  intro p hp
  exact hnd p hp

theorem validCount_eq_gsize {g : Grid} (hnd : ∀ p ∈ pixelIdx g, val g p ≠ 255) :
    validCount g = gsize g := by
  rw [validCount, Finset.filter_true_of_mem hnd, card_pixelIdx]

/-! ## Claim theorems -/

/-- C7: for every window of `H` rows and `W` columns, the total sum of
the CONTAG adjacency matrix equals the number of ordered 4-connected
adjacent pixel pairs, `2·(H·(W−1) + (H−1)·W)`: each unordered adjacent
pair is scanned once from each of its two pixels, same-class pairs
included. -/
theorem adjacency_total_ordered_pairs (g : Grid) :
    totalAdjacency g = 2 * (g.H * (g.W - 1) + (g.H - 1) * g.W) := by
  rw [totalAdjacency_eq_sum_nbrs,
    Finset.sum_congr rfl (fun p hp => nbrs_length_eq (pixel_lt hp).1 (pixel_lt hp).2),
    pixelIdx, Finset.sum_product]
  simp only [Finset.sum_add_distrib, Finset.sum_const, Finset.card_range, smul_eq_mul,
    sum_range_one_le, sum_range_succ_lt, ← Finset.mul_sum]
  have e1 : (∑ x ∈ Finset.range g.H, ∑ _y ∈ Finset.range g.W, if 1 ≤ x then 1 else 0) =
      (g.H - 1) * g.W := by
    rw [Finset.sum_comm, Finset.sum_congr rfl (fun y _ => sum_range_one_le g.H),
      Finset.sum_const, Finset.card_range, smul_eq_mul, mul_comm]
  have e2 : (∑ x ∈ Finset.range g.H, ∑ _y ∈ Finset.range g.W, if x + 1 < g.H then 1 else 0) =
      (g.H - 1) * g.W := by
    rw [Finset.sum_comm, Finset.sum_congr rfl (fun y _ => sum_range_succ_lt g.H),
      Finset.sum_const, Finset.card_range, smul_eq_mul, mul_comm]
  rw [e1, e2]
  ring

/-- C10: the adjacency matrix built by the CONTAG computation is
symmetric — `matrix[u][v] = matrix[v][u]` for all class values — because
every unordered adjacent pixel pair is visited once from each of its two
pixels. -/
theorem adjacency_matrix_symmetric (g : Grid) (u v : ℕ) :
    adjCount g u v = adjCount g v u := by
  rw [adjCount_pairs, adjCount_pairs, Finset.sum_comm]
  refine Finset.sum_congr rfl fun x _ => Finset.sum_congr rfl fun y _ => ?_
  refine if_congr ?_ rfl rfl
  constructor
  · rintro ⟨a, b, c⟩
    exact ⟨b, a, (adj_comm y x).mp c⟩
  · rintro ⟨a, b, c⟩
    exact ⟨b, a, (adj_comm x y).mp c⟩

/-- C5: for every valid window and class `c` in 1..6,
`ED_c = edgeLength[c] / totalArea` where `edgeLength[c]` counts one
pixel-width unit per differing same-row neighbor pair and one
pixel-height unit per differing same-column neighbor pair observed from
the class-`c` side, and `totalArea` is the window pixel count times the
cell area. -/
theorem ed_edge_length_formula (g : Grid) (c : ℕ) (res_x res_y : ℚ)
    (hc : c ∈ Finset.Icc 1 6) (hval : 0 < validCount g) :
    edValue g c res_x res_y =
      edgeLengthSpec g c res_x res_y / ((gsize g : ℚ) * (res_x * res_y)) := by
  rw [edValue, calculate_edge_length_eq_spec]

/-- Witness for C5 at the window `[[1, 2]]` with resolutions 2 and 3. -/
theorem ed_edge_length_formula_witness :
    ((1 : ℕ) ∈ Finset.Icc 1 6 ∧ 0 < validCount (mkGrid [[1, 2]])) ∧
      edValue (mkGrid [[1, 2]]) 1 2 3 =
        edgeLengthSpec (mkGrid [[1, 2]]) 1 2 3 /
          ((gsize (mkGrid [[1, 2]]) : ℚ) * (2 * 3)) :=
  ⟨⟨by decide, by decide⟩, ed_edge_length_formula (mkGrid [[1, 2]]) 1 2 3 (by decide) (by decide)⟩

/-- C6: when every pixel of a nonempty window carries a class in 1..6
(in particular no nodata), the six PD values as computed by
`pdanded.py::_calculate_metrics` sum to exactly 1 in exact arithmetic:
the six class counts partition the window. -/
theorem pd_sum_partition (g : Grid) (cell_area : ℚ)
    (hv : ∀ p ∈ pixelIdx g, val g p ∈ Finset.Icc 1 6)
    (hs : 0 < gsize g) (hca : 0 < cell_area) :
    (∑ c ∈ Finset.Icc 1 6, patch_density g c cell_area ((gsize g : ℚ) * cell_area)) = 1 := by
  unfold patch_density
  rw [← Finset.sum_div, ← Finset.sum_mul]
  have hnat : (∑ c ∈ Finset.Icc 1 6, pixelCount g c) = gsize g := by
    rw [← card_pixelIdx g]
    exact (Finset.card_eq_sum_card_fiberwise hv).symm
  have hcount : (∑ c ∈ Finset.Icc 1 6, (pixelCount g c : ℚ)) = (gsize g : ℚ) := by
    exact_mod_cast congrArg (fun n : ℕ => (n : ℚ)) hnat
  rw [hcount, div_self]
  exact mul_ne_zero (Nat.cast_pos.mpr hs).ne' hca.ne'

/-- Witness for C6 at the window `[[1, 2], [3, 4]]` with cell area 2. -/
theorem pd_sum_partition_witness :
    ((∀ p ∈ pixelIdx (mkGrid [[1, 2], [3, 4]]),
        val (mkGrid [[1, 2], [3, 4]]) p ∈ Finset.Icc 1 6) ∧
      0 < gsize (mkGrid [[1, 2], [3, 4]]) ∧ (0 : ℚ) < 2) ∧
      (∑ c ∈ Finset.Icc 1 6,
        patch_density (mkGrid [[1, 2], [3, 4]]) c 2
          ((gsize (mkGrid [[1, 2], [3, 4]]) : ℚ) * 2)) = 1 :=
  ⟨⟨by decide, by decide, by norm_num⟩,
    pd_sum_partition (mkGrid [[1, 2], [3, 4]]) 2 (by decide) (by decide) (by norm_num)⟩

/-- C2: a valid window with exactly one distinct pixel value drives the
final division of `_calculate_contag` into a zero denominator — the
source has no special case for `m = 1`, so the computed CONTAG is the
division-by-zero branch `(1 + contag / 0) * 100`. -/
theorem contag_single_class_division_by_zero (g : Grid)
    (hval : 0 < validCount g) (hm : numClasses g = 1) :
    contagDenominator g = 0 ∧
      calculate_contag g (gsize g) = (1 + contagNumerator g (gsize g) / 0) * 100 := by
  have hden : contagDenominator g = 0 := by
    rw [contagDenominator, hm]
    simp
  exact ⟨hden, by rw [calculate_contag, hden]⟩

/-- Witness for C2 at the single-class window `[[5, 5]]`. -/
theorem contag_single_class_division_by_zero_witness :
    (0 < validCount (mkGrid [[5, 5]]) ∧ numClasses (mkGrid [[5, 5]]) = 1) ∧
      contagDenominator (mkGrid [[5, 5]]) = 0 :=
  ⟨⟨by decide, by decide⟩,
    (contag_single_class_division_by_zero (mkGrid [[5, 5]]) (by decide) (by decide)).1⟩

/-- C3: a zone whose window is Invalid — fractional bounds outside the
raster, or a clipped sub-grid that is empty or all-nodata — produces the
all-NaN row (`none`): the bounds are never clamped, no exception escapes
(the embedded loop body is a total function into `Option`), and the
remaining zones are still processed (the output row list keeps one row
per zone).  This covers both scripts: the SHDI/LPI/CONTAG row and the
PD/ED row. -/
theorem invalid_window_all_nan (data : Grid) (zs : List ZoneBounds) (i : ℕ)
    (z : ZoneBounds) (res_x res_y : ℚ) (hget : zs[i]? = some z)
    (hinv : zoneInvalid data z) :
    (processZones data zs).length = zs.length ∧
      (processZones data zs)[i]? = some none ∧
      processZonePdEd data res_x res_y z = none := by
  have hclip : ¬boundsInvalid data z →
      (gsize (zoneClip data z) = 0 ∨ validCount (zoneClip data z) = 0) := by
    intro hb
    rcases hinv with h | h | h
    · exact absurd h hb
    · exact Or.inl h
    · exact Or.inr h
  have hz : processZone data z = none := by
    rw [processZone]
    by_cases hb : boundsInvalid data z
    · rw [if_pos hb]
    · rw [if_neg hb, if_pos (hclip hb)]
  refine ⟨List.length_map zs _, ?_, ?_⟩
  · rw [processZones, List.getElem?_map, hget, Option.map_some', hz]
  · rw [processZonePdEd]
    by_cases hb : boundsInvalid data z
    · rw [if_pos hb]
    · rw [if_neg hb, if_pos (hclip hb)]

/-- Witness for C3 at a 1×1 raster and one zone whose window starts at
column −1. -/
theorem invalid_window_all_nan_witness :
    (([⟨-1, 0, 1, 1⟩] : List ZoneBounds)[0]? = some ⟨-1, 0, 1, 1⟩ ∧
        zoneInvalid (mkGrid [[1]]) ⟨-1, 0, 1, 1⟩) ∧
      (processZones (mkGrid [[1]]) [⟨-1, 0, 1, 1⟩]).length = 1 ∧
      (processZones (mkGrid [[1]]) [⟨-1, 0, 1, 1⟩])[0]? = some none ∧
      processZonePdEd (mkGrid [[1]]) 1 1 ⟨-1, 0, 1, 1⟩ = none :=
  ⟨⟨rfl, Or.inl (Or.inl (by norm_num [boundsInvalid]))⟩,
    invalid_window_all_nan (mkGrid [[1]]) [⟨-1, 0, 1, 1⟩] 0 ⟨-1, 0, 1, 1⟩ 1 1 rfl
      (Or.inl (Or.inl (by norm_num [boundsInvalid])))⟩

/-- C9: the explicit CRS re-check in `_calculate_metrics` is dead code:
`_load_raster` only hands back metadata on the branch where the CRS
already equals `EPSG:32649`, and fails before returning otherwise, so
the pipeline can never surface the mismatch-naming `ValueError`. -/
theorem crs_valueerror_unreachable (r : RasterFile) (zs : List ZoneBounds) :
    calculateMetricsPipeline r zs ≠ Except.error PipelineError.crsMismatch := by
  rw [calculateMetricsPipeline, loadRaster]
  by_cases h : r.crs = "EPSG:32649"
  · rw [if_pos h]
    simp [h]
  · rw [if_neg h]
    simp

/-- C8 (amended): a raster whose CRS is not `EPSG:32649` makes the
pipeline fail during loading — before any zone metric is computed and
without continuing on reprojected data — but with the load-time failure
(`meta` is never assigned on the mismatch branch), not with an error
identifying the CRS mismatch. -/
theorem crs_mismatch_load_failure (r : RasterFile) (zs : List ZoneBounds)
    (h : r.crs ≠ "EPSG:32649") :
    calculateMetricsPipeline r zs = Except.error PipelineError.loadFailure := by
  rw [calculateMetricsPipeline, loadRaster, if_neg h]

/-- Witness for the amended C8 at a raster tagged `EPSG:4326`. -/
theorem crs_mismatch_load_failure_witness :
    (⟨"EPSG:4326", mkGrid [[1]]⟩ : RasterFile).crs ≠ "EPSG:32649" ∧
      calculateMetricsPipeline ⟨"EPSG:4326", mkGrid [[1]]⟩ [] =
        Except.error PipelineError.loadFailure :=
  ⟨by decide, crs_mismatch_load_failure ⟨"EPSG:4326", mkGrid [[1]]⟩ [] (by decide)⟩

/-- C8 counterexample: on a mismatched raster the pipeline's failure is
the load failure, not an error identifying the CRS mismatch — so the
claim that the engine "fails with an error identifying the mismatch" is
false as stated. -/
theorem crs_mismatch_counterexample :
    (⟨"EPSG:4326", mkGrid [[1]]⟩ : RasterFile).crs ≠ "EPSG:32649" ∧
      calculateMetricsPipeline ⟨"EPSG:4326", mkGrid [[1]]⟩ [] =
        Except.error PipelineError.loadFailure ∧
      calculateMetricsPipeline ⟨"EPSG:4326", mkGrid [[1]]⟩ [] ≠
        Except.error PipelineError.crsMismatch := by
  refine ⟨by decide, ?_, ?_⟩ <;>
    simp [calculateMetricsPipeline, loadRaster]

/-- C1 counterexample: at the valid window `[[1, 255]]` the source SHDI
treats the nodata sentinel 255 as a class and divides by the raw window
size, giving `ln 2`, while the claimed formula (classes without nodata,
valid-pixel denominator) gives `0`. -/
theorem shdi_nodata_counterexample :
    0 < validCount (mkGrid [[1, 255]]) ∧
      calculate_shdi (mkGrid [[1, 255]]) ≠ shdiClaim (mkGrid [[1, 255]]) := by
  refine ⟨by decide, ?_⟩
  have hu : uniqueVals (mkGrid [[1, 255]]) = {1, 255} := by decide
  have hcp : classesPresent (mkGrid [[1, 255]]) = {1} := by decide
  have hc1 : pixelCount (mkGrid [[1, 255]]) 1 = 1 := by decide
  have hvc : validCount (mkGrid [[1, 255]]) = 1 := by decide
  have hp1 : shdiProp (mkGrid [[1, 255]]) 1 = 1 / 2 := by
    rw [shdiProp, hc1, show gsize (mkGrid [[1, 255]]) = 2 by decide]
    norm_num
  have hp255 : shdiProp (mkGrid [[1, 255]]) 255 = 1 / 2 := by
    rw [shdiProp, show pixelCount (mkGrid [[1, 255]]) 255 = 1 by decide,
      show gsize (mkGrid [[1, 255]]) = 2 by decide]
    norm_num
  intro heq
  rw [calculate_shdi, shdiClaim, hu, hcp,
    Finset.sum_pair (by decide : (1 : ℕ) ≠ 255), Finset.sum_singleton, hp1, hp255,
    hc1, hvc] at heq
  push_cast at heq
  rw [one_div, Real.log_inv] at heq
  norm_num [Real.log_one] at heq

/-- C1 (amended): the source SHDI runs over all distinct pixel values
with the raw window size as denominator; on windows containing no
nodata pixel this coincides with the claimed formula (distinct
land-cover classes, valid-pixel denominator). -/
theorem shdi_matches_claim_without_nodata (g : Grid)
    (hnd : ∀ p ∈ pixelIdx g, val g p ≠ 255) :
    calculate_shdi g = shdiClaim g := by
  rw [calculate_shdi, shdiClaim, classesPresent,
    Finset.erase_eq_of_not_mem (nodata_not_mem hnd), validCount_eq_gsize hnd]
  rfl

/-- Witness for the amended C1 at the nodata-free window `[[1, 2]]`. -/
theorem shdi_matches_claim_without_nodata_witness :
    (∀ p ∈ pixelIdx (mkGrid [[1, 2]]), val (mkGrid [[1, 2]]) p ≠ 255) ∧
      calculate_shdi (mkGrid [[1, 2]]) = shdiClaim (mkGrid [[1, 2]]) :=
  ⟨by decide, shdi_matches_claim_without_nodata (mkGrid [[1, 2]]) (by decide)⟩

/-- C4 counterexample: at the valid window `[[1, 255], [255, 255]]` the
source LPI takes its maximum over all distinct values including the
nodata sentinel — `counts.max() = 3` from the three 255-pixels — giving
`3/4`, while the claimed nodata-excluded maximum gives `1/4`. -/
theorem lpi_nodata_counterexample :
    0 < validCount (mkGrid [[1, 255], [255, 255]]) ∧
      calculate_lpi (mkGrid [[1, 255], [255, 255]]) (gsize (mkGrid [[1, 255], [255, 255]])) ≠
        lpiClaim (mkGrid [[1, 255], [255, 255]]) := by
  refine ⟨by decide, ?_⟩
  rw [calculate_lpi, lpiClaim,
    show maxCount (mkGrid [[1, 255], [255, 255]]) = 3 by decide,
    show (classesPresent (mkGrid [[1, 255], [255, 255]])).sup
      (pixelCount (mkGrid [[1, 255], [255, 255]])) = 1 by decide,
    show gsize (mkGrid [[1, 255], [255, 255]]) = 4 by decide]
  norm_num

/-- C4 (amended): the source LPI is the maximum pixel count over all
distinct values including the nodata sentinel, divided by the raw
window pixel count; for every valid window (one with at least one
non-nodata pixel) it lies in `[0, 1]`, and on windows with no nodata
pixel it coincides with the claimed nodata-excluded maximum. -/
theorem lpi_formula_and_bounds (g : Grid) (hval : 0 < validCount g) :
    (0 ≤ calculate_lpi g (gsize g) ∧ calculate_lpi g (gsize g) ≤ 1) ∧
      ((∀ p ∈ pixelIdx g, val g p ≠ 255) → calculate_lpi g (gsize g) = lpiClaim g) := by
  have hs : 0 < gsize g := by
    calc 0 < validCount g := hval
      _ ≤ (pixelIdx g).card := Finset.card_filter_le _ _
      _ = gsize g := card_pixelIdx g
  have hmax_le : maxCount g ≤ gsize g := by
    rw [maxCount]
    apply Finset.sup_le
    intro v _
    calc pixelCount g v ≤ (pixelIdx g).card := Finset.card_filter_le _ _
      _ = gsize g := card_pixelIdx g
  refine ⟨⟨?_, ?_⟩, ?_⟩
  · rw [calculate_lpi]
    positivity
  · rw [calculate_lpi, div_le_one (by exact_mod_cast hs)]
    exact_mod_cast hmax_le
  · intro hnd
    rw [calculate_lpi, lpiClaim, maxCount, classesPresent,
      Finset.erase_eq_of_not_mem (nodata_not_mem hnd)]

/-- Witness for the amended C4 at the valid nodata-containing window
`[[1, 255], [255, 255]]`: the `[0, 1]` bounds hold there too. -/
theorem lpi_formula_and_bounds_witness :
    0 < validCount (mkGrid [[1, 255], [255, 255]]) ∧
      (0 ≤ calculate_lpi (mkGrid [[1, 255], [255, 255]])
            (gsize (mkGrid [[1, 255], [255, 255]])) ∧
        calculate_lpi (mkGrid [[1, 255], [255, 255]])
            (gsize (mkGrid [[1, 255], [255, 255]])) ≤ 1) :=
  ⟨by decide, (lpi_formula_and_bounds (mkGrid [[1, 255], [255, 255]]) (by decide)).1⟩

end Landuse

/-! ## Sanity checks

Concrete evaluations of the embedding against hand-computed values,
including the reference scenarios of the specification (the 4×4
four-class window and the single-class window). -/

section SanityChecks

open Landuse

example : uniqueVals (mkGrid [[1, 255]]) = {1, 255} := by decide

example : maxCount (mkGrid [[1, 255], [255, 255]]) = 3 := by decide

example :
    totalAdjacency (mkGrid [[1, 1, 2, 2], [1, 1, 2, 2], [3, 3, 4, 4], [3, 3, 4, 4]]) = 48 := by
  decide

example : adjCount (mkGrid [[1, 2]]) 1 2 = 1 ∧ adjCount (mkGrid [[1, 2]]) 2 1 = 1 := by decide

example : calculate_edge_length (mkGrid [[5, 5, 5], [5, 5, 5], [5, 5, 5]]) 5 2 3 = 0 := by
  simp +decide [calculate_edge_length, pixelIdx, mkGrid, Finset.sum_product, Finset.sum_range_succ,
    Finset.sum_range_zero, val, nbrs, nbrCand, inBounds, List.filter]

example : calculate_edge_length (mkGrid [[1, 2]]) 1 2 3 = 2 := by
  simp +decide [calculate_edge_length, pixelIdx, mkGrid, Finset.sum_product, Finset.sum_range_succ,
    Finset.sum_range_zero, val, nbrs, nbrCand, inBounds, List.filter]

example : pixelCount (mkGrid [[1, 2], [1, 1]]) 1 = 3 := by decide

example :
    processZonePdEd (mkGrid [[1, 2], [1, 1]]) 1 1 ⟨-1, 0, 1, 1⟩ = none := by
  rw [processZonePdEd, if_pos]
  rw [boundsInvalid]
  norm_num

example : calculate_lpi (mkGrid [[1, 255], [255, 255]]) 4 = 3 / 4 := by
  have h : maxCount (mkGrid [[1, 255], [255, 255]]) = 3 := by decide
  rw [calculate_lpi, h]
  norm_num

end SanityChecks
